import Mathlib

/-!
# Verification of the blackjack game script

A shallow embedding of the game logic of `script.js`: a single-deck
blackjack round state machine (deck creation, Fisher-Yates shuffling,
dealing, hand scoring with soft/hard ace resolution, player hit/stand,
the automated dealer turn, and round resolution with running
statistics).  Randomness (`Math.random`) is modelled by an oracle
`rand : Nat → Nat`; the index drawn at step `i` of the shuffle is
`rand i % (i + 1)`, matching `Math.floor(Math.random() * (i + 1))`.
DOM text nodes (scores, messages, counters) are modelled as plain
fields of the game state.
-/

namespace Blackjack

/-- The four suits, in the order of the `suits` array: ♣ ♦ ♥ ♠. -/
inductive Suit where
  | clubs | diamonds | hearts | spades
deriving DecidableEq, Repr, Fintype

/-- The thirteen ranks, in the order of the `ranks` array. -/
inductive Rank where
  | r2 | r3 | r4 | r5 | r6 | r7 | r8 | r9 | r10 | J | Q | K | A
deriving DecidableEq, Repr, Fintype

/-- A card object `{ rank, suit, value }` as pushed by `createDeck`. -/
structure Card where
  rank : Rank
  suit : Suit
  value : Nat
deriving DecidableEq, Repr

/-- The value `createDeck` stores for each rank: `parseInt(r)` for the
numeric ranks, 10 for J/Q/K, 11 for an ace. -/
def rankValue : Rank → Nat
  | .r2 => 2 | .r3 => 3 | .r4 => 4 | .r5 => 5 | .r6 => 6 | .r7 => 7
  | .r8 => 8 | .r9 => 9 | .r10 => 10 | .J => 10 | .Q => 10 | .K => 10
  | .A => 11

/-- The `suits` array. -/
def suitList : List Suit := [.clubs, .diamonds, .hearts, .spades]

/-- The `ranks` array. -/
def rankList : List Rank :=
  [.r2, .r3, .r4, .r5, .r6, .r7, .r8, .r9, .r10, .J, .Q, .K, .A]

/-- The 52-card deck built by `createDeck`: for each suit, for each
rank, push `{ rank: r, suit: s, value: value }`. -/
def createDeckList : List Card :=
  (suitList.map (fun s => rankList.map (fun r => Card.mk r s (rankValue r)))).flatten

/-- Fallback card for out-of-range indexing (JS would yield `undefined`;
the game never indexes out of range after deck creation). -/
def defCard : Card := ⟨Rank.r2, Suit.clubs, 2⟩

/-- The accumulated `score` of the first loop of `calculateScore`:
the sum of the `value` fields of the hand. -/
def baseSum (hand : List Card) : Nat :=
  hand.foldl (fun s c => s + c.value) 0

/-- The accumulated `aces` count of the first loop of `calculateScore`:
the number of cards whose rank is `'A'`. -/
def aceCount (hand : List Card) : Nat :=
  hand.foldl (fun a c => if c.rank = Rank.A then a + 1 else a) 0

/-- The `while (score > 21 && aces > 0) { score -= 10; aces--; }` loop
of `calculateScore`, by recursion on the remaining ace count. -/
def reduceAces : Nat → Nat → Nat
  | score, 0 => score
  | score, a + 1 => if 21 < score then reduceAces (score - 10) a else score

/-- `calculateScore`: sum the card values counting each ace as 11, then
drop 10 per ace while the total exceeds 21 and aces remain. -/
def calculateScore (hand : List Card) : Nat :=
  reduceAces (baseSum hand) (aceCount hand)

/-- The whole mutable state of the script: the module-level game
variables together with the DOM surface the game writes to. -/
structure GameState where
  deck : List Card
  deckIndex : Nat
  playerHand : List Card
  dealerHand : List Card
  gameOver : Bool
  wins : Nat
  losses : Nat
  busts : Nat
  btnHitDisabled : Bool
  btnStandDisabled : Bool
  btnNewDisabled : Bool
  message : String
  msgShown : Bool
  playerDisplay : List Card
  /-- Dealer cards as rendered; `none` is the face-down card back. -/
  dealerDisplay : List (Option Card)
  playerScoreText : Nat
  /-- `none` renders as `Dealer: ?`. -/
  dealerScoreText : Option Nat
  winText : Nat
  lossText : Nat
  bustText : Nat
deriving DecidableEq, Repr

/-- The state at script load: empty deck, empty hands, zero counters. -/
def initialState : GameState where
  deck := []
  deckIndex := 0
  playerHand := []
  dealerHand := []
  gameOver := false
  wins := 0
  losses := 0
  busts := 0
  btnHitDisabled := false
  btnStandDisabled := false
  btnNewDisabled := false
  message := ""
  msgShown := false
  playerDisplay := []
  dealerDisplay := []
  playerScoreText := 0
  dealerScoreText := none
  winText := 0
  lossText := 0
  bustText := 0

/-- `createDeck`: empty the deck array and push the 52 cards. -/
def createDeck (st : GameState) : GameState :=
  { st with deck := createDeckList }

/-- `[deck[i], deck[j]] = [deck[j], deck[i]]`: exchange positions `i`
and `j` of a list. -/
def swapL (l : List Card) (i j : Nat) : List Card :=
  match l.get? i, l.get? j with
  | some a, some b => (l.set i b).set j a
  | _, _ => l

/-- The Fisher-Yates loop of `shuffleDeck`: for `i` from `len - 1`
down to `1`, swap position `i` with position `rand i % (i + 1)`
(the model of `Math.floor(Math.random() * (i + 1))`). -/
def fyLoop (rand : Nat → Nat) : Nat → List Card → List Card
  | 0, l => l
  | i + 1, l => fyLoop rand i (swapL l (i + 1) (rand (i + 1) % (i + 2)))

/-- `shuffleDeck`: Fisher-Yates shuffle the deck in place and reset
`deckIndex` to 0. -/
def shuffleDeck (rand : Nat → Nat) (st : GameState) : GameState :=
  { st with deck := fyLoop rand (st.deck.length - 1) st.deck, deckIndex := 0 }

/-- `dealCard`: reshuffle when the deal position has reached the end of
the deck, then return `deck[deckIndex++]`. -/
def dealCard (rand : Nat → Nat) (st : GameState) : Card × GameState :=
  let st := if st.deck.length ≤ st.deckIndex then shuffleDeck rand st else st
  (st.deck.getD st.deckIndex defCard, { st with deckIndex := st.deckIndex + 1 })

/-- `renderTable(showDealerHidden)`: display both hands (dealer card 0
face down unless revealed), the player score, and the dealer score or
`?`. -/
def renderTable (showDealerHidden : Bool) (st : GameState) : GameState :=
  { st with
    playerDisplay := st.playerHand
    dealerDisplay :=
      st.dealerHand.enum.map
        (fun p => if p.1 = 0 ∧ showDealerHidden = false then none else some p.2)
    playerScoreText := calculateScore st.playerHand
    dealerScoreText :=
      if showDealerHidden then some (calculateScore st.dealerHand) else none }

/-- `showMessage`: set the overlay text and show it. -/
def showMessage (text : String) (st : GameState) : GameState :=
  { st with message := text, msgShown := true }

/-- `hideMessage`. -/
def hideMessage (st : GameState) : GameState :=
  { st with msgShown := false }

/-- `endGame`: mark the round over, disable hit/stand, enable new. -/
def endGame (st : GameState) : GameState :=
  { st with gameOver := true, btnHitDisabled := true, btnStandDisabled := true,
            btnNewDisabled := false }

/-- `updateStats`: copy the three counters to their display elements. -/
def updateStats (st : GameState) : GameState :=
  { st with winText := st.wins, lossText := st.losses, bustText := st.busts }

/-- `handleRoundEnd`: reveal the table, classify the round from the two
scores, bump the matching counter, refresh the stats display, and end
the game. -/
def handleRoundEnd (st : GameState) : GameState :=
  let p := calculateScore st.playerHand
  let d := calculateScore st.dealerHand
  let st := renderTable true st
  let st :=
    if 21 < p then
      let st := showMessage "BUST! You lose." st
      { st with busts := st.busts + 1 }
    else if 21 < d then
      let st := showMessage "Dealer BUSTS! You Win!" st
      { st with wins := st.wins + 1 }
    else if d < p then
      let st := showMessage "You Win!" st
      { st with wins := st.wins + 1 }
    else if p < d then
      let st := showMessage "Dealer Wins." st
      { st with losses := st.losses + 1 }
    else
      showMessage "Push (Tie)." st
  endGame (updateStats st)

/-- The opening portion of `startNewGame`: reset message, flags and
hands, create and shuffle a deck when none exists yet, deal
player/dealer/player/dealer, and render with the dealer's first card
hidden. -/
def dealInitial (rand : Nat → Nat) (st0 : GameState) : GameState :=
  let st := hideMessage st0
  let st := { st with gameOver := false, playerHand := [], dealerHand := [],
                      btnHitDisabled := false, btnStandDisabled := false,
                      btnNewDisabled := true }
  let st := if st.deck.length = 0 then shuffleDeck rand (createDeck st) else st
  let p1 := dealCard rand st
  let st := { p1.2 with playerHand := p1.2.playerHand ++ [p1.1] }
  let p2 := dealCard rand st
  let st := { p2.2 with dealerHand := p2.2.dealerHand ++ [p2.1] }
  let p3 := dealCard rand st
  let st := { p3.2 with playerHand := p3.2.playerHand ++ [p3.1] }
  let p4 := dealCard rand st
  let st := { p4.2 with dealerHand := p4.2.dealerHand ++ [p4.1] }
  renderTable false st

/-- `startNewGame`: run the opening deal, then resolve at once when the
player was dealt 21. -/
def startNewGame (rand : Nat → Nat) (st0 : GameState) : GameState :=
  let st := dealInitial rand st0
  if calculateScore st.playerHand = 21 then handleRoundEnd st else st

/-- `playerHit`: when the round is live, deal one card to the player,
re-render, and on a score above 21 reveal, report the bust, bump the
bust counter and end the round. -/
def playerHit (rand : Nat → Nat) (st : GameState) : GameState :=
  if st.gameOver then st
  else
    let p := dealCard rand st
    let st := { p.2 with playerHand := p.2.playerHand ++ [p.1] }
    let st := renderTable false st
    if 21 < calculateScore st.playerHand then
      let st := renderTable true st
      let st := showMessage "BUST! You lose." st
      let st := { st with busts := st.busts + 1 }
      endGame (updateStats st)
    else st

/-- One iteration of the dealer's drawing loop in `playerStand`: deal a
card to the dealer and re-render with the dealer revealed.  The oracle
`r` feeds a possible reshuffle inside `dealCard`. -/
def dealerDraw (r : Nat → Nat) (st : GameState) : GameState :=
  let p := dealCard r st
  renderTable true { p.2 with dealerHand := p.2.dealerHand ++ [p.1] }

/-- The `while (dScore < 17)` dealer loop of `playerStand`, with
explicit fuel; `rand f` is the oracle for the draw taken at remaining
fuel `f + 1`.  `none` means the fuel ran out before the loop exited. -/
def dealerLoop (rand : Nat → Nat → Nat) (fuel : Nat) (st : GameState) :
    Option GameState :=
  if calculateScore st.dealerHand < 17 then
    match fuel with
    | 0 => none
    | f + 1 => dealerLoop rand f (dealerDraw (rand f) st)
  else some st

/-- `playerStand`: when the round is live, reveal the dealer, run the
dealer's hit-until-17 loop, then resolve the round. -/
def playerStand (rand : Nat → Nat → Nat) (fuel : Nat) (st : GameState) :
    Option GameState :=
  if st.gameOver then some st
  else (dealerLoop rand fuel (renderTable true st)).map handleRoundEnd

/-- The round outcome a message stands for. -/
inductive Outcome where
  | win | lose | push
deriving DecidableEq, Repr

/-- Classify the five literal end-of-round messages. -/
def msgOutcome (m : String) : Option Outcome :=
  if m = "Dealer BUSTS! You Win!" ∨ m = "You Win!" then some Outcome.win
  else if m = "BUST! You lose." ∨ m = "Dealer Wins." then some Outcome.lose
  else if m = "Push (Tie)." then some Outcome.push
  else none

/-- Game states reachable from the script's load-time sequence
`createDeck(); shuffleDeck(); startNewGame();` by the player's three
buttons.  `startNewGame` is only clickable once the round is over. -/
inductive Reachable : GameState → Prop
  | boot (r1 r2 : Nat → Nat) :
      Reachable (startNewGame r2 (shuffleDeck r1 (createDeck initialState)))
  | hit (r : Nat → Nat) {st : GameState} :
      Reachable st → Reachable (playerHit r st)
  | stand (r : Nat → Nat → Nat) (fuel : Nat) {st st' : GameState} :
      Reachable st → playerStand r fuel st = some st' → Reachable st'
  | newGame (r : Nat → Nat) {st : GameState} :
      Reachable st → st.gameOver = true → Reachable (startNewGame r st)

/-! ## Scoring: ace resolution (claim C1) -/

theorem reduceAces_of_le {s : Nat} (a : Nat) (h : s ≤ 21) : reduceAces s a = s := by
  cases a with
  | zero => rfl
  | succ n => simp [reduceAces, Nat.not_lt.mpr h]

theorem reduceAces_spec (a : Nat) : ∀ s : Nat,
    (∃ k, k ≤ a ∧ reduceAces s a = s - 10 * k)
    ∧ (∀ j, j ≤ a → s - 10 * j ≤ 21 →
        s - 10 * j ≤ reduceAces s a ∧ reduceAces s a ≤ 21)
    ∧ ((∀ j, j ≤ a → 21 < s - 10 * j) → reduceAces s a = s - 10 * a) := by
  induction a with
  | zero =>
    intro s
    refine ⟨⟨0, Nat.le_refl 0, by simp [reduceAces]⟩, ?_, ?_⟩
    · intro j hj hle
      have hj0 : j = 0 := Nat.le_zero.mp hj
      subst hj0
      simp only [reduceAces]
      omega
    · intro h
      simp [reduceAces]
  | succ n ih =>
    intro s
    by_cases h : 21 < s
    · have hred : reduceAces s (n + 1) = reduceAces (s - 10) n := by
        simp [reduceAces, h]
      obtain ⟨⟨k, hk, hkeq⟩, hmax, hall⟩ := ih (s - 10)
      refine ⟨⟨k + 1, by omega, by rw [hred, hkeq]; omega⟩, ?_, ?_⟩
      · intro j hj hle
        cases j with
        | zero => omega
        | succ j' =>
          have h1 : s - 10 - 10 * j' = s - 10 * (j' + 1) := by omega
          have h2 := hmax j' (by omega) (by omega)
          rw [hred]
          omega
      · intro hgt
        have h1 : ∀ j, j ≤ n → 21 < s - 10 - 10 * j := by
          intro j hj
          have := hgt (j + 1) (by omega)
          omega
        rw [hred, hall h1]
        omega
    · have hred : reduceAces s (n + 1) = s := by
        simp [reduceAces, h]
      refine ⟨⟨0, by omega, by rw [hred]; omega⟩, ?_, ?_⟩
      · intro j hj hle
        rw [hred]
        omega
      · intro hgt
        have := hgt 0 (by omega)
        omega

theorem baseSum_aux (l : List Card) : ∀ s : Nat,
    l.foldl (fun s c => s + c.value) s = s + (l.map (fun c => c.value)).sum := by
  induction l with
  | nil => intro s; simp
  | cons c t ih =>
    intro s
    simp only [List.foldl_cons, List.map_cons, List.sum_cons, ih (s + c.value)]
    omega

theorem baseSum_eq_sum (hand : List Card) :
    baseSum hand = (hand.map (fun c => c.value)).sum := by
  simpa using baseSum_aux hand 0

theorem baseSum_eq_rankValue_sum (hand : List Card)
    (hw : ∀ c ∈ hand, c.value = rankValue c.rank) :
    baseSum hand = (hand.map (fun c => rankValue c.rank)).sum := by
  rw [baseSum_eq_sum]
  congr 1
  exact List.map_congr_left hw

/-- C1.  `calculateScore` sums the blackjack values of the cards (each
ace as 11), then drops 10 per ace while the total exceeds 21 and
unreduced aces remain; the result is the valuation `baseSum - 10 * k`
for some choice of `k ≤ aceCount` aces counted as 1, it dominates every
valuation that is at most 21 (and is itself at most 21) whenever such a
valuation exists, and when every valuation exceeds 21 it is the total
with all aces counted as 1. -/
theorem calculateScore_resolves_aces (hand : List Card) (j : Nat)
    (hw : ∀ c ∈ hand, c.value = rankValue c.rank) :
    baseSum hand = (hand.map (fun c => rankValue c.rank)).sum
    ∧ calculateScore hand = reduceAces (baseSum hand) (aceCount hand)
    ∧ (∃ k, k ≤ aceCount hand ∧ calculateScore hand = baseSum hand - 10 * k)
    ∧ (j ≤ aceCount hand → baseSum hand - 10 * j ≤ 21 →
        baseSum hand - 10 * j ≤ calculateScore hand ∧ calculateScore hand ≤ 21)
    ∧ ((∀ i, i ≤ aceCount hand → 21 < baseSum hand - 10 * i) →
        calculateScore hand = baseSum hand - 10 * aceCount hand) := by
  obtain ⟨hex, hmax, hall⟩ := reduceAces_spec (aceCount hand) (baseSum hand)
  exact ⟨baseSum_eq_rankValue_sum hand hw, rfl, hex, hmax j, hall⟩

/-- Witness for C1 at two concrete hands: ace+king+five scores 16
(the largest valuation not exceeding 21), and king+queen+king, with no
valuation at most 21, scores the full 30. -/
theorem calculateScore_resolves_aces_witness :
    (16 ≤ calculateScore [⟨Rank.A, Suit.spades, 11⟩, ⟨Rank.K, Suit.spades, 10⟩,
        ⟨Rank.r5, Suit.hearts, 5⟩]
      ∧ calculateScore [⟨Rank.A, Suit.spades, 11⟩, ⟨Rank.K, Suit.spades, 10⟩,
        ⟨Rank.r5, Suit.hearts, 5⟩] ≤ 21)
    ∧ calculateScore [⟨Rank.K, Suit.spades, 10⟩, ⟨Rank.Q, Suit.hearts, 10⟩,
        ⟨Rank.K, Suit.hearts, 10⟩] = 30 - 10 * 0 := by
  constructor
  · have h := calculateScore_resolves_aces
      [⟨Rank.A, Suit.spades, 11⟩, ⟨Rank.K, Suit.spades, 10⟩,
        ⟨Rank.r5, Suit.hearts, 5⟩] 1 (by decide)
    have h2 := h.2.2.2.1 (by decide) (by decide)
    exact ⟨h2.1, h2.2⟩
  · have h := calculateScore_resolves_aces
      [⟨Rank.K, Suit.spades, 10⟩, ⟨Rank.Q, Suit.hearts, 10⟩,
        ⟨Rank.K, Suit.hearts, 10⟩] 0 (by decide)
    have h2 := h.2.2.2.2 (by
      intro i hi
      have h0 : i = 0 := Nat.le_zero.mp hi
      subst h0
      decide)
    simpa using h2

/-! ## Deck management: shuffling is a permutation (claims C4, C6) -/

theorem count_set (b x : Card) : ∀ (l : List Card) (i : Nat), i < l.length →
    (l.set i b).count x + (if l.getD i defCard = x then 1 else 0)
      = l.count x + (if b = x then 1 else 0) := by
  intro l
  induction l with
  | nil => intro i h; simp at h
  | cons c t ih =>
    intro i h
    cases i with
    | zero =>
      simp only [List.set_cons_zero, List.count_cons, List.getD_cons_zero,
        beq_iff_eq]
      split <;> split <;> omega
    | succ n =>
      have hn : n < t.length := by simpa using h
      have := ih n hn
      simp only [List.set_cons_succ, List.count_cons, List.getD_cons_succ,
        beq_iff_eq]
      split <;> omega

theorem getD_set (l : List Card) (i j : Nat) (b : Card) :
    i ≠ j → (l.set i b).getD j defCard = l.getD j defCard := by
  intro hne
  simp [List.getD, List.getElem?_set_ne hne]

theorem swapL_perm (l : List Card) (i j : Nat) : (swapL l i j).Perm l := by
  unfold swapL
  cases h1 : l.get? i with
  | none => exact List.Perm.refl l
  | some a =>
    cases h2 : l.get? j with
    | none => exact List.Perm.refl l
    | some b =>
      have hi : i < l.length := by
        by_contra hc
        rw [List.get?_eq_none.mpr (Nat.le_of_not_lt hc)] at h1
        exact Option.noConfusion h1
      have hj : j < l.length := by
        by_contra hc
        rw [List.get?_eq_none.mpr (Nat.le_of_not_lt hc)] at h2
        exact Option.noConfusion h2
      have ha : l.getD i defCard = a := by simp [List.getD, ← List.get?_eq_getElem?, h1]
      have hb : l.getD j defCard = b := by simp [List.getD, ← List.get?_eq_getElem?, h2]
      show ((l.set i b).set j a).Perm l
      rw [List.perm_iff_count]
      intro x
      by_cases hij : i = j
      · subst hij
        obtain rfl : a = b := by rw [h1] at h2; exact Option.some.inj h2
        have e1 := count_set a x l i hi
        have e2 := count_set a x (l.set i a) i (by simpa using hi)
        have e3 : (l.set i a).getD i defCard = a := by
          simp [List.getD, List.getElem?_set_self hi]
        rw [e3] at e2
        rw [ha] at e1
        omega
      · have e1 := count_set b x l i hi
        have e2 := count_set a x (l.set i b) j (by simpa using hj)
        have e3 : (l.set i b).getD j defCard = b := by
          rw [getD_set l i j b hij, hb]
        rw [e3] at e2
        rw [ha] at e1
        omega

theorem fyLoop_perm (rand : Nat → Nat) : ∀ (n : Nat) (l : List Card),
    (fyLoop rand n l).Perm l := by
  intro n
  induction n with
  | zero => intro l; exact List.Perm.refl l
  | succ m ih =>
    intro l
    exact (ih _).trans (swapL_perm l (m + 1) (rand (m + 1) % (m + 2)))

theorem shuffleDeck_deck_perm (rand : Nat → Nat) (st : GameState) :
    ((shuffleDeck rand st).deck).Perm st.deck :=
  fyLoop_perm rand (st.deck.length - 1) st.deck

theorem dealCard_deck_perm (rand : Nat → Nat) (st : GameState) :
    ((dealCard rand st).2.deck).Perm st.deck := by
  unfold dealCard
  split
  · exact shuffleDeck_deck_perm rand st
  · exact List.Perm.refl st.deck

/-- C6.  `shuffleDeck` permutes the deck in place — the multiset of
cards after shuffling equals the multiset before, whatever the random
draws — and resets the deal position `deckIndex` to 0. -/
theorem shuffleDeck_permutes (rand : Nat → Nat) (st : GameState) :
    ((shuffleDeck rand st).deck : Multiset Card) = (st.deck : Multiset Card)
    ∧ (shuffleDeck rand st).deckIndex = 0
    ∧ (shuffleDeck rand st).deck.length = st.deck.length := by
  refine ⟨Multiset.coe_eq_coe.mpr (shuffleDeck_deck_perm rand st), rfl, ?_⟩
  exact (shuffleDeck_deck_perm rand st).length_eq

/-- C4.  `createDeck` builds exactly 52 cards, one for each pair of the
4 suits and 13 ranks; `dealCard` reshuffles the same deck in place
exactly when the deal position has reached the deck's length, never
adds cards, and preserves the deck's length, so the deck stays at 52
cards across every shuffle and deal after creation. -/
theorem deck_is_single_52 (rand : Nat → Nat) (st : GameState) :
    createDeckList.length = 52
    ∧ (∀ (s : Suit) (r : Rank),
        createDeckList.count (Card.mk r s (rankValue r)) = 1)
    ∧ (createDeck st).deck = createDeckList
    ∧ (dealCard rand st).2.deck
        = (if st.deck.length ≤ st.deckIndex then shuffleDeck rand st else st).deck
    ∧ ((dealCard rand st).2.deck : Multiset Card) = (st.deck : Multiset Card)
    ∧ (dealCard rand st).2.deck.length = st.deck.length
    ∧ (shuffleDeck rand st).deck.length = st.deck.length := by
  refine ⟨by decide, by decide, rfl, ?_, ?_, ?_, ?_⟩
  · unfold dealCard
    split <;> rfl
  · exact Multiset.coe_eq_coe.mpr (dealCard_deck_perm rand st)
  · exact (dealCard_deck_perm rand st).length_eq
  · exact (shuffleDeck_deck_perm rand st).length_eq

/-! ## Field-preservation helpers -/

@[simp] theorem dealCard_snd_playerHand (rand : Nat → Nat) (st : GameState) :
    (dealCard rand st).2.playerHand = st.playerHand := by
  simp only [dealCard, shuffleDeck]
  split <;> rfl

@[simp] theorem dealCard_snd_dealerHand (rand : Nat → Nat) (st : GameState) :
    (dealCard rand st).2.dealerHand = st.dealerHand := by
  simp only [dealCard, shuffleDeck]
  split <;> rfl

@[simp] theorem dealCard_snd_gameOver (rand : Nat → Nat) (st : GameState) :
    (dealCard rand st).2.gameOver = st.gameOver := by
  simp only [dealCard, shuffleDeck]
  split <;> rfl

@[simp] theorem dealCard_snd_wins (rand : Nat → Nat) (st : GameState) :
    (dealCard rand st).2.wins = st.wins := by
  simp only [dealCard, shuffleDeck]
  split <;> rfl

@[simp] theorem dealCard_snd_losses (rand : Nat → Nat) (st : GameState) :
    (dealCard rand st).2.losses = st.losses := by
  simp only [dealCard, shuffleDeck]
  split <;> rfl

@[simp] theorem dealCard_snd_busts (rand : Nat → Nat) (st : GameState) :
    (dealCard rand st).2.busts = st.busts := by
  simp only [dealCard, shuffleDeck]
  split <;> rfl

theorem dealCard_of_lt (rand : Nat → Nat) (st : GameState)
    (h : st.deckIndex < st.deck.length) :
    dealCard rand st
      = (st.deck.getD st.deckIndex defCard,
         { st with deckIndex := st.deckIndex + 1 }) := by
  simp [dealCard, Nat.not_le.mpr h]

theorem handleRoundEnd_preserve (st : GameState) :
    (handleRoundEnd st).playerHand = st.playerHand
    ∧ (handleRoundEnd st).dealerHand = st.dealerHand
    ∧ (handleRoundEnd st).deck = st.deck
    ∧ (handleRoundEnd st).deckIndex = st.deckIndex
    ∧ (handleRoundEnd st).gameOver = true := by
  simp only [handleRoundEnd, renderTable, showMessage, endGame, updateStats]
  split_ifs <;> simp

/-! ## The dealer's drawing loop (claim C2) -/

theorem dealerDraw_dealerHand (r : Nat → Nat) (st : GameState) :
    (dealerDraw r st).dealerHand = st.dealerHand ++ [(dealCard r st).1] := by
  simp [dealerDraw, renderTable]

theorem dealerLoop_stop (rand : Nat → Nat → Nat) (fuel : Nat) (st : GameState)
    (h : 17 ≤ calculateScore st.dealerHand) :
    dealerLoop rand fuel st = some st := by
  cases fuel <;> simp [dealerLoop, Nat.not_lt.mpr h]

theorem dealerLoop_step (rand : Nat → Nat → Nat) (f : Nat) (st : GameState)
    (h : calculateScore st.dealerHand < 17) :
    dealerLoop rand (f + 1) st = dealerLoop rand f (dealerDraw (rand f) st) := by
  conv_lhs => rw [dealerLoop]
  simp [h]

theorem dealerLoop_some_ge (rand : Nat → Nat → Nat) : ∀ (fuel : Nat)
    (st st' : GameState), dealerLoop rand fuel st = some st' →
    17 ≤ calculateScore st'.dealerHand := by
  intro fuel
  induction fuel with
  | zero =>
    intro st st' h
    by_cases hs : calculateScore st.dealerHand < 17
    · rw [dealerLoop] at h
      simp [hs] at h
    · rw [dealerLoop] at h
      simp [hs] at h
      subst h
      omega
  | succ f ih =>
    intro st st' h
    by_cases hs : calculateScore st.dealerHand < 17
    · rw [dealerLoop_step rand f st hs] at h
      exact ih _ _ h
    · rw [dealerLoop] at h
      simp [hs] at h
      subst h
      omega

theorem playerStand_eq (rand : Nat → Nat → Nat) (fuel : Nat) (st : GameState)
    (h : st.gameOver = false) :
    playerStand rand fuel st
      = (dealerLoop rand fuel (renderTable true st)).map handleRoundEnd := by
  simp [playerStand, h]

/-- C2.  On `playerStand` of a live round the dealer's loop runs: it
draws exactly one card whenever the dealer's score is below 17, returns
at once (drawing nothing) as soon as the score is 17 or more, and any
state it terminates in — hence the dealer's hand at round resolution —
scores at least 17. -/
theorem playerStand_dealer_until_17 (rand : Nat → Nat → Nat) (fuel f : Nat)
    (st stL stR : GameState) (hGO : st.gameOver = false) :
    playerStand rand fuel st
      = (dealerLoop rand fuel (renderTable true st)).map handleRoundEnd
    ∧ (17 ≤ calculateScore stL.dealerHand → dealerLoop rand fuel stL = some stL)
    ∧ (calculateScore stL.dealerHand < 17 →
        dealerLoop rand (f + 1) stL = dealerLoop rand f (dealerDraw (rand f) stL)
        ∧ (dealerDraw (rand f) stL).dealerHand
            = stL.dealerHand ++ [(dealCard (rand f) stL).1])
    ∧ (playerStand rand fuel st = some stR →
        17 ≤ calculateScore stR.dealerHand) := by
  refine ⟨playerStand_eq rand fuel st hGO, dealerLoop_stop rand fuel stL,
    fun h => ⟨dealerLoop_step rand f stL h, dealerDraw_dealerHand (rand f) stL⟩, ?_⟩
  intro h
  rw [playerStand_eq rand fuel st hGO] at h
  cases hdl : dealerLoop rand fuel (renderTable true st) with
  | none => rw [hdl] at h; simp at h
  | some s =>
    rw [hdl] at h
    simp at h
    subst h
    rw [(handleRoundEnd_preserve s).2.1]
    exact dealerLoop_some_ge rand fuel _ s hdl

/-! ## Round resolution (claims C3, C9, C10) -/

theorem msgOutcome_bust : msgOutcome "BUST! You lose." = some Outcome.lose := by
  decide

theorem msgOutcome_dealerBust :
    msgOutcome "Dealer BUSTS! You Win!" = some Outcome.win := by decide

theorem msgOutcome_win : msgOutcome "You Win!" = some Outcome.win := by decide

theorem msgOutcome_dealerWins :
    msgOutcome "Dealer Wins." = some Outcome.lose := by decide

theorem msgOutcome_push : msgOutcome "Push (Tie)." = some Outcome.push := by
  decide

theorem hre_message (st : GameState) :
    (handleRoundEnd st).message =
      (if 21 < calculateScore st.playerHand then "BUST! You lose."
       else if 21 < calculateScore st.dealerHand then "Dealer BUSTS! You Win!"
       else if calculateScore st.dealerHand < calculateScore st.playerHand then
         "You Win!"
       else if calculateScore st.playerHand < calculateScore st.dealerHand then
         "Dealer Wins."
       else "Push (Tie).") := by
  simp only [handleRoundEnd, renderTable, showMessage, endGame, updateStats]
  split_ifs <;> rfl

theorem hre_wins (st : GameState) :
    (handleRoundEnd st).wins =
      (if 21 < calculateScore st.playerHand then st.wins
       else if 21 < calculateScore st.dealerHand then st.wins + 1
       else if calculateScore st.dealerHand < calculateScore st.playerHand then
         st.wins + 1
       else if calculateScore st.playerHand < calculateScore st.dealerHand then
         st.wins
       else st.wins) := by
  simp only [handleRoundEnd, renderTable, showMessage, endGame, updateStats]
  split_ifs <;> rfl

theorem hre_losses (st : GameState) :
    (handleRoundEnd st).losses =
      (if 21 < calculateScore st.playerHand then st.losses
       else if 21 < calculateScore st.dealerHand then st.losses
       else if calculateScore st.dealerHand < calculateScore st.playerHand then
         st.losses
       else if calculateScore st.playerHand < calculateScore st.dealerHand then
         st.losses + 1
       else st.losses) := by
  simp only [handleRoundEnd, renderTable, showMessage, endGame, updateStats]
  split_ifs <;> rfl

theorem hre_busts (st : GameState) :
    (handleRoundEnd st).busts =
      (if 21 < calculateScore st.playerHand then st.busts + 1
       else if 21 < calculateScore st.dealerHand then st.busts
       else if calculateScore st.dealerHand < calculateScore st.playerHand then
         st.busts
       else if calculateScore st.playerHand < calculateScore st.dealerHand then
         st.busts
       else st.busts) := by
  simp only [handleRoundEnd, renderTable, showMessage, endGame, updateStats]
  split_ifs <;> rfl

theorem hre_lossText (st : GameState) :
    (handleRoundEnd st).lossText = (handleRoundEnd st).losses := by
  simp only [handleRoundEnd, renderTable, showMessage, endGame, updateStats]

/-- C3.  `handleRoundEnd` classifies every round as exactly one of win,
lose, push: the player loses on a score above 21; otherwise wins when
the dealer busts or is strictly lower; loses when the dealer is
strictly higher; and pushes exactly when neither score exceeds 21 and
they are equal.  Exactly one of the wins/losses/busts counters is
incremented, except on a push, where all three are unchanged. -/
theorem handleRoundEnd_classifies (st : GameState) :
    (∃ o, msgOutcome (handleRoundEnd st).message = some o)
    ∧ (21 < calculateScore st.playerHand →
        msgOutcome (handleRoundEnd st).message = some Outcome.lose
        ∧ (handleRoundEnd st).busts = st.busts + 1
        ∧ (handleRoundEnd st).wins = st.wins
        ∧ (handleRoundEnd st).losses = st.losses)
    ∧ (calculateScore st.playerHand ≤ 21 →
        (21 < calculateScore st.dealerHand
          ∨ calculateScore st.dealerHand < calculateScore st.playerHand) →
        msgOutcome (handleRoundEnd st).message = some Outcome.win
        ∧ (handleRoundEnd st).wins = st.wins + 1
        ∧ (handleRoundEnd st).losses = st.losses
        ∧ (handleRoundEnd st).busts = st.busts)
    ∧ (calculateScore st.playerHand ≤ 21 → calculateScore st.dealerHand ≤ 21 →
        calculateScore st.playerHand < calculateScore st.dealerHand →
        msgOutcome (handleRoundEnd st).message = some Outcome.lose
        ∧ (handleRoundEnd st).losses = st.losses + 1
        ∧ (handleRoundEnd st).wins = st.wins
        ∧ (handleRoundEnd st).busts = st.busts)
    ∧ (msgOutcome (handleRoundEnd st).message = some Outcome.push ↔
        calculateScore st.playerHand ≤ 21 ∧ calculateScore st.dealerHand ≤ 21
          ∧ calculateScore st.playerHand = calculateScore st.dealerHand)
    ∧ (calculateScore st.playerHand ≤ 21 → calculateScore st.dealerHand ≤ 21 →
        calculateScore st.playerHand = calculateScore st.dealerHand →
        (handleRoundEnd st).wins = st.wins
        ∧ (handleRoundEnd st).losses = st.losses
        ∧ (handleRoundEnd st).busts = st.busts) := by
  rw [hre_message st, hre_wins st, hre_losses st, hre_busts st]
  split_ifs with h1 h2 h3 h4 <;>
    simp [msgOutcome_bust, msgOutcome_dealerBust, msgOutcome_win,
      msgOutcome_dealerWins, msgOutcome_push] <;>
    try omega

/-- Two concrete game states used by the round-resolution witnesses:
a push (both hands scoring 19) and a player bust (player at 25). -/
def pushW : GameState :=
  { initialState with
    playerHand := [⟨Rank.K, Suit.clubs, 10⟩, ⟨Rank.r9, Suit.clubs, 9⟩],
    dealerHand := [⟨Rank.K, Suit.hearts, 10⟩, ⟨Rank.r9, Suit.hearts, 9⟩] }

def bustW : GameState :=
  { initialState with
    playerHand := [⟨Rank.K, Suit.clubs, 10⟩, ⟨Rank.Q, Suit.clubs, 10⟩,
      ⟨Rank.r5, Suit.clubs, 5⟩],
    dealerHand := [⟨Rank.r9, Suit.hearts, 9⟩] }

/-- Witness for C3: the push state leaves all counters untouched and
reports a push; the bust state reports a loss and bumps only busts. -/
theorem handleRoundEnd_classifies_witness :
    (msgOutcome (handleRoundEnd pushW).message = some Outcome.push
      ∧ (handleRoundEnd pushW).wins = 0
      ∧ (handleRoundEnd pushW).losses = 0
      ∧ (handleRoundEnd pushW).busts = 0)
    ∧ (msgOutcome (handleRoundEnd bustW).message = some Outcome.lose
      ∧ (handleRoundEnd bustW).busts = 1
      ∧ (handleRoundEnd bustW).wins = 0
      ∧ (handleRoundEnd bustW).losses = 0) := by
  constructor
  · have h := handleRoundEnd_classifies pushW
    have hpush := h.2.2.2.2.1.mpr ⟨by decide, by decide, by decide⟩
    have hstat := h.2.2.2.2.2 (by decide) (by decide) (by decide)
    exact ⟨hpush, hstat.1, hstat.2.1, hstat.2.2⟩
  · have h := handleRoundEnd_classifies bustW
    have hb := h.2.1 (by decide)
    exact ⟨hb.1, hb.2.1, hb.2.2.1, hb.2.2.2⟩

/-! ## The player's hit (claims C5, C9) -/

/-- C5.  `playerHit` on a live round appends exactly the dealt card to
the player's hand; it ends the round if and only if the new score
exceeds 21, in which case it reports the bust, increments only the
busts counter and disables the hit and stand controls; otherwise the
round stays in progress with every counter unchanged. -/
theorem playerHit_spec (rand : Nat → Nat) (st : GameState)
    (hGO : st.gameOver = false) :
    (playerHit rand st).playerHand = st.playerHand ++ [(dealCard rand st).1]
    ∧ ((playerHit rand st).gameOver = true ↔
        21 < calculateScore (st.playerHand ++ [(dealCard rand st).1]))
    ∧ (21 < calculateScore (st.playerHand ++ [(dealCard rand st).1]) →
        (playerHit rand st).busts = st.busts + 1
        ∧ (playerHit rand st).message = "BUST! You lose."
        ∧ (playerHit rand st).btnHitDisabled = true
        ∧ (playerHit rand st).btnStandDisabled = true
        ∧ (playerHit rand st).wins = st.wins
        ∧ (playerHit rand st).losses = st.losses)
    ∧ (calculateScore (st.playerHand ++ [(dealCard rand st).1]) ≤ 21 →
        (playerHit rand st).gameOver = false
        ∧ (playerHit rand st).wins = st.wins
        ∧ (playerHit rand st).losses = st.losses
        ∧ (playerHit rand st).busts = st.busts) := by
  by_cases hb : 21 < calculateScore (st.playerHand ++ [(dealCard rand st).1]) <;>
    simp [playerHit, hGO, hb, renderTable, showMessage, endGame, updateStats]

/-- Concrete witness states for C5: a hand at 20 about to draw a king
(a bust), and a hand at 10 about to draw a five (still live). -/
def hitBustW : GameState :=
  { initialState with
    deck := [⟨Rank.K, Suit.spades, 10⟩],
    playerHand := [⟨Rank.K, Suit.clubs, 10⟩, ⟨Rank.Q, Suit.clubs, 10⟩] }

def hitLiveW : GameState :=
  { initialState with
    deck := [⟨Rank.r5, Suit.spades, 5⟩],
    playerHand := [⟨Rank.K, Suit.clubs, 10⟩] }

/-- Witness for C5: hitting at 20 into a king busts (only busts counter
moves, round over); hitting at 10 into a five keeps the round live with
no counter change. -/
theorem playerHit_spec_witness :
    ((playerHit (fun i => i) hitBustW).busts = 1
      ∧ (playerHit (fun i => i) hitBustW).gameOver = true
      ∧ (playerHit (fun i => i) hitBustW).losses = 0)
    ∧ ((playerHit (fun i => i) hitLiveW).gameOver = false
      ∧ (playerHit (fun i => i) hitLiveW).busts = 0) := by
  constructor
  · have h := playerHit_spec (fun i => i) hitBustW rfl
    have hb := h.2.2.1 (by decide)
    exact ⟨hb.1, h.2.1.mpr (by decide), hb.2.2.2.2.2⟩
  · have h := playerHit_spec (fun i => i) hitLiveW rfl
    have h4 := h.2.2.2 (by decide)
    exact ⟨h4.1, h4.2.2.2⟩

/-- C9.  A player bust never touches the losses counter: `playerHit`
leaves `losses` (and `wins`) unchanged in every case, and
`handleRoundEnd` increments `losses` exactly when neither score
exceeds 21 and the dealer's is strictly higher; the loss count on
display always equals the `losses` counter at round end, so it excludes
rounds lost by busting. -/
theorem losses_exclude_busts (rand : Nat → Nat) (st st2 : GameState) :
    (playerHit rand st).losses = st.losses
    ∧ (playerHit rand st).wins = st.wins
    ∧ (handleRoundEnd st2).losses =
        st2.losses +
          (if calculateScore st2.playerHand ≤ 21
              ∧ calculateScore st2.dealerHand ≤ 21
              ∧ calculateScore st2.playerHand < calculateScore st2.dealerHand
           then 1 else 0)
    ∧ (handleRoundEnd st2).lossText = (handleRoundEnd st2).losses := by
  refine ⟨?_, ?_, ?_, hre_lossText st2⟩
  · by_cases hGO : st.gameOver <;>
      by_cases hb : 21 < calculateScore (st.playerHand ++ [(dealCard rand st).1]) <;>
      simp [playerHit, hGO, hb, renderTable, showMessage, endGame, updateStats]
  · by_cases hGO : st.gameOver <;>
      by_cases hb : 21 < calculateScore (st.playerHand ++ [(dealCard rand st).1]) <;>
      simp [playerHit, hGO, hb, renderTable, showMessage, endGame, updateStats]
  · rw [hre_losses st2]
    split_ifs <;> omega

/-! ## The opening deal (claims C7, C10) -/

theorem dealInitial_lengths (rand : Nat → Nat) (st0 : GameState) :
    (dealInitial rand st0).playerHand.length = 2
    ∧ (dealInitial rand st0).dealerHand.length = 2 := by
  constructor <;>
    (simp [dealInitial, hideMessage, renderTable]; split <;> rfl)

theorem renderTable_false_display (stX : GameState) :
    (renderTable false stX).dealerDisplay
      = stX.dealerHand.enum.map (fun p => if p.1 = 0 then none else some p.2) := by
  simp [renderTable]

theorem dealInitial_dealerDisplay (rand : Nat → Nat) (st0 : GameState) :
    (dealInitial rand st0).dealerDisplay
      = (dealInitial rand st0).dealerHand.enum.map
          (fun p => if p.1 = 0 then none else some p.2) := by
  simp only [dealInitial]
  simp [renderTable]

theorem display_pair (c d : Card) :
    ([c, d]).enum.map (fun p => if p.1 = 0 then none else some p.2)
      = [none, some d] := rfl

/-- C7.  `startNewGame` resets both hands and deals two cards each from
consecutive deck positions in the order player, dealer, player, dealer
(when the four deals fit in the remaining deck); the face-down render
of the resulting table hides exactly the dealer's first-dealt card. -/
theorem startNewGame_initial_deal (rand : Nat → Nat) (st : GameState)
    (h4 : st.deckIndex + 4 ≤ st.deck.length) :
    (startNewGame rand st).playerHand
      = [st.deck.getD st.deckIndex defCard,
         st.deck.getD (st.deckIndex + 2) defCard]
    ∧ (startNewGame rand st).dealerHand
      = [st.deck.getD (st.deckIndex + 1) defCard,
         st.deck.getD (st.deckIndex + 3) defCard]
    ∧ (startNewGame rand st).deckIndex = st.deckIndex + 4
    ∧ (startNewGame rand st).deck = st.deck
    ∧ (renderTable false (startNewGame rand st)).dealerDisplay
      = [none, some (st.deck.getD (st.deckIndex + 3) defCard)]
    ∧ (calculateScore (startNewGame rand st).playerHand ≠ 21 →
        (startNewGame rand st).dealerDisplay
          = [none, some (st.deck.getD (st.deckIndex + 3) defCard)]) := by
  have nz : ¬ st.deck.length = 0 := by omega
  have n0 : ¬ (st.deck.length ≤ st.deckIndex) := by omega
  have n1 : ¬ (st.deck.length ≤ st.deckIndex + 1) := by omega
  have n2 : ¬ (st.deck.length ≤ st.deckIndex + 2) := by omega
  have n3 : ¬ (st.deck.length ≤ st.deckIndex + 3) := by omega
  have hph : (dealInitial rand st).playerHand
      = [st.deck.getD st.deckIndex defCard,
         st.deck.getD (st.deckIndex + 2) defCard] := by
    simp [dealInitial, hideMessage, dealCard, renderTable, nz, n0, n1, n2, n3]
  have hdh : (dealInitial rand st).dealerHand
      = [st.deck.getD (st.deckIndex + 1) defCard,
         st.deck.getD (st.deckIndex + 3) defCard] := by
    simp [dealInitial, hideMessage, dealCard, renderTable, nz, n0, n1, n2, n3]
  have hidx : (dealInitial rand st).deckIndex = st.deckIndex + 4 := by
    simp [dealInitial, hideMessage, dealCard, renderTable, nz, n0, n1, n2, n3]
  have hdeck : (dealInitial rand st).deck = st.deck := by
    simp [dealInitial, hideMessage, dealCard, renderTable, nz, n0, n1, n2, n3]
  by_cases hc : calculateScore (dealInitial rand st).playerHand = 21
  · have hres : startNewGame rand st = handleRoundEnd (dealInitial rand st) := by
      simp [startNewGame, hc]
    have hpres := handleRoundEnd_preserve (dealInitial rand st)
    refine ⟨?_, ?_, ?_, ?_, ?_, ?_⟩
    · rw [hres, hpres.1, hph]
    · rw [hres, hpres.2.1, hdh]
    · rw [hres, hpres.2.2.2.1, hidx]
    · rw [hres, hpres.2.2.1, hdeck]
    · rw [hres, renderTable_false_display, hpres.2.1, hdh, display_pair]
    · intro hne
      rw [hres, hpres.1] at hne
      exact absurd hc hne
  · have hres : startNewGame rand st = dealInitial rand st := by
      simp [startNewGame, hc]
    refine ⟨?_, ?_, ?_, ?_, ?_, ?_⟩
    · rw [hres, hph]
    · rw [hres, hdh]
    · rw [hres, hidx]
    · rw [hres, hdeck]
    · rw [hres, renderTable_false_display, hdh, display_pair]
    · intro hne
      rw [hres, dealInitial_dealerDisplay, hdh, display_pair]

/-- Witness for C7: from a fresh created deck, the opening deal gives
the player clubs 2 and 4, the dealer clubs 3 and 5, and renders the
dealer's first card (the 3 of clubs) face down. -/
theorem startNewGame_initial_deal_witness :
    (startNewGame (fun i => i) { initialState with deck := createDeckList }).playerHand
      = [⟨Rank.r2, Suit.clubs, 2⟩, ⟨Rank.r4, Suit.clubs, 4⟩]
    ∧ (startNewGame (fun i => i) { initialState with deck := createDeckList }).dealerHand
      = [⟨Rank.r3, Suit.clubs, 3⟩, ⟨Rank.r5, Suit.clubs, 5⟩]
    ∧ (startNewGame (fun i => i) { initialState with deck := createDeckList }).dealerDisplay
      = [none, some ⟨Rank.r5, Suit.clubs, 5⟩] := by
  have h := startNewGame_initial_deal (fun i => i)
    { initialState with deck := createDeckList } (by decide)
  refine ⟨?_, ?_, ?_⟩
  · rw [h.1]; rfl
  · rw [h.2.1]; rfl
  · rw [h.2.2.2.2.2 (by decide)]; rfl

theorem hre_outcome_at_21 (s : GameState)
    (hp : calculateScore s.playerHand = 21) :
    (msgOutcome (handleRoundEnd s).message = some Outcome.push
      ↔ calculateScore s.dealerHand = 21)
    ∧ (calculateScore s.dealerHand ≠ 21 →
        msgOutcome (handleRoundEnd s).message = some Outcome.win) := by
  rw [hre_message s, hp]
  split_ifs <;>
    simp [msgOutcome_bust, msgOutcome_dealerBust, msgOutcome_win,
      msgOutcome_dealerWins, msgOutcome_push] <;>
    omega

/-- C10.  When the opening deal gives the player exactly 21,
`startNewGame` resolves the round at once: the round ends with the
dealer still holding only the two dealt cards, and the outcome is a
push precisely when the dealer's two-card hand also scores 21,
otherwise a player win. -/
theorem startNewGame_dealt_21 (rand : Nat → Nat) (st : GameState)
    (h21 : calculateScore (startNewGame rand st).playerHand = 21) :
    (startNewGame rand st).gameOver = true
    ∧ (startNewGame rand st).dealerHand.length = 2
    ∧ (msgOutcome (startNewGame rand st).message = some Outcome.push
        ↔ calculateScore (startNewGame rand st).dealerHand = 21)
    ∧ (calculateScore (startNewGame rand st).dealerHand ≠ 21 →
        msgOutcome (startNewGame rand st).message = some Outcome.win) := by
  by_cases hc : calculateScore (dealInitial rand st).playerHand = 21
  · have hres : startNewGame rand st = handleRoundEnd (dealInitial rand st) := by
      simp [startNewGame, hc]
    have hpres := handleRoundEnd_preserve (dealInitial rand st)
    have hout := hre_outcome_at_21 (dealInitial rand st) hc
    refine ⟨?_, ?_, ?_, ?_⟩
    · rw [hres]; exact hpres.2.2.2.2
    · rw [hres, hpres.2.1]; exact (dealInitial_lengths rand st).2
    · rw [hres, hpres.2.1]; exact hout.1
    · rw [hres, hpres.2.1]; exact hout.2
  · exfalso
    have hres : startNewGame rand st = dealInitial rand st := by
      simp [startNewGame, hc]
    rw [hres] at h21
    exact hc h21

/-- Witness state for C10: a four-card deck dealing the player
ace + king (21) and the dealer 2 + 3. -/
def bjW : GameState :=
  { initialState with
    deck := [⟨Rank.A, Suit.clubs, 11⟩, ⟨Rank.r2, Suit.clubs, 2⟩,
      ⟨Rank.K, Suit.clubs, 10⟩, ⟨Rank.r3, Suit.clubs, 3⟩] }

/-- Witness for C10: a dealt blackjack against a dealer 5 ends the
round at once as a player win with the dealer still on two cards. -/
theorem startNewGame_dealt_21_witness :
    (startNewGame (fun i => i) bjW).gameOver = true
    ∧ (startNewGame (fun i => i) bjW).dealerHand.length = 2
    ∧ msgOutcome (startNewGame (fun i => i) bjW).message = some Outcome.win := by
  have h := startNewGame_dealt_21 (fun i => i) bjW (by decide)
  exact ⟨h.1, h.2.1, h.2.2.2 (by decide)⟩

/-- Witness state for C2: a live round with the dealer on 16 and a
five on top of the deck, so the dealer draws exactly once to 21. -/
def standW : GameState :=
  { initialState with
    deck := [⟨Rank.r5, Suit.spades, 5⟩],
    playerHand := [⟨Rank.K, Suit.clubs, 10⟩, ⟨Rank.r9, Suit.clubs, 9⟩],
    dealerHand := [⟨Rank.K, Suit.hearts, 10⟩, ⟨Rank.r6, Suit.hearts, 6⟩] }

/-- Witness for C2: standing against a dealer 16 ends with the dealer
at 17 or more, and a dealer already at 19 draws nothing. -/
theorem playerStand_dealer_until_17_witness :
    17 ≤ calculateScore
      ((playerStand (fun _ i => i) 5 standW).getD initialState).dealerHand
    ∧ dealerLoop (fun _ i => i) 5 pushW = some pushW := by
  have h := playerStand_dealer_until_17 (fun _ i => i) 5 0 standW pushW
    ((playerStand (fun _ i => i) 5 standW).getD initialState) rfl
  exact ⟨h.2.2.2 rfl, h.2.1 (by decide)⟩

/-! ## Dealing never removes cards; a mid-round reshuffle can
duplicate a held card (claim C8)

A concrete play-through from the script's load-time state: with the
identity shuffle oracle the deck stays in created order; eleven rounds
later a round starts at deal position 49, its first hit exhausts the
deck, and a reshuffle oracle that moves position 50 (the king of
spades, just dealt to the player) to the front deals the player a
second king of spades. -/

def idShuffle : Nat → Nat := fun i => i

def idShuffle2 : Nat → Nat → Nat := fun _ i => i

def moveFiftyToFront : Nat → Nat := fun i => if i = 50 then 0 else i

def bj0 : GameState :=
  startNewGame idShuffle (shuffleDeck idShuffle (createDeck initialState))

def bj1 : GameState := (playerStand idShuffle2 30 bj0).getD initialState

def bj2 : GameState := startNewGame idShuffle bj1

def bj3 : GameState := (playerStand idShuffle2 30 bj2).getD initialState

def bj4 : GameState := startNewGame idShuffle bj3

def bj5 : GameState := startNewGame idShuffle bj4

def bj6 : GameState := playerHit idShuffle bj5

def bj7 : GameState := playerHit idShuffle bj6

def bj8 : GameState := startNewGame idShuffle bj7

def bj9 : GameState := playerHit idShuffle bj8

def bj10 : GameState := startNewGame idShuffle bj9

def bj11 : GameState := (playerStand idShuffle2 30 bj10).getD initialState

def bj12 : GameState := startNewGame idShuffle bj11

def bj13 : GameState := playerHit idShuffle bj12

def bj14 : GameState := startNewGame idShuffle bj13

def bj15 : GameState := startNewGame idShuffle bj14

def bj16 : GameState := (playerStand idShuffle2 30 bj15).getD initialState

def bj17 : GameState := startNewGame idShuffle bj16

def bj18 : GameState := playerHit idShuffle bj17

def bjDup : GameState := startNewGame moveFiftyToFront bj18

set_option maxRecDepth 100000 in
set_option maxHeartbeats 2000000 in
theorem bjDup_reachable : Reachable bjDup := by
  have h0 : Reachable bj0 := Reachable.boot idShuffle idShuffle
  have h1 : Reachable bj1 := Reachable.stand idShuffle2 30 h0 rfl
  have h2 : Reachable bj2 := Reachable.newGame idShuffle h1 rfl
  have h3 : Reachable bj3 := Reachable.stand idShuffle2 30 h2 rfl
  have h4 : Reachable bj4 := Reachable.newGame idShuffle h3 rfl
  have h5 : Reachable bj5 := Reachable.newGame idShuffle h4 rfl
  have h6 : Reachable bj6 := Reachable.hit idShuffle h5
  have h7 : Reachable bj7 := Reachable.hit idShuffle h6
  have h8 : Reachable bj8 := Reachable.newGame idShuffle h7 rfl
  have h9 : Reachable bj9 := Reachable.hit idShuffle h8
  have h10 : Reachable bj10 := Reachable.newGame idShuffle h9 rfl
  have h11 : Reachable bj11 := Reachable.stand idShuffle2 30 h10 rfl
  have h12 : Reachable bj12 := Reachable.newGame idShuffle h11 rfl
  have h13 : Reachable bj13 := Reachable.hit idShuffle h12
  have h14 : Reachable bj14 := Reachable.newGame idShuffle h13 rfl
  have h15 : Reachable bj15 := Reachable.newGame idShuffle h14 rfl
  have h16 : Reachable bj16 := Reachable.stand idShuffle2 30 h15 rfl
  have h17 : Reachable bj17 := Reachable.newGame idShuffle h16 rfl
  have h18 : Reachable bj18 := Reachable.hit idShuffle h17
  exact Reachable.newGame moveFiftyToFront h18 rfl

set_option maxRecDepth 100000 in
set_option maxHeartbeats 2000000 in
/-- C8.  `dealCard` never removes a card from the deck — the deck's
multiset of cards (and hence its length) is unchanged by every deal —
so a reshuffle triggered mid-round returns already-dealt cards to the
dealing pool: in a reachable game state the same rank-and-suit card is
held twice across the player's and dealer's hands of one round. -/
theorem dealCard_keeps_deck_and_dup_reachable (rand : Nat → Nat)
    (st : GameState) :
    ((dealCard rand st).2.deck : Multiset Card) = (st.deck : Multiset Card)
    ∧ (dealCard rand st).2.deck.length = st.deck.length
    ∧ ∃ (stR : GameState) (c : Card),
        Reachable stR ∧ 2 ≤ (stR.playerHand ++ stR.dealerHand).count c := by
  refine ⟨Multiset.coe_eq_coe.mpr (dealCard_deck_perm rand st),
    (dealCard_deck_perm rand st).length_eq,
    bjDup, ⟨Rank.K, Suit.spades, 10⟩, bjDup_reachable, by decide⟩

end Blackjack
